import Mathlib

/-!
Shallow embedding of `user.go` from the influxdb user-service fragment.

The file translates the Go source into executable Lean definitions:
pure Go functions become Lean functions, Go `error` results become
`Option GoErr` (with `none` meaning a `nil` error), and the fallible
service operations become `Except GoErr`-valued state transformers over
an explicit store state.  Types that the fragment uses but does not
define (`Status`, `ID`, the `Error` envelope and its code constants,
and any concrete `UserService` implementation) are modelled from the
specification and carry a doc comment saying so.
-/

namespace Influx

/-- Modelled from the spec: the error taxonomy of the surrounding system
(`EInvalid`, `ENotFound`, `EInternal` are externally defined constants);
the spec names the three kinds `Invalid`, `NotFound`, `Internal`. -/
inductive Code where
  | EInvalid
  | ENotFound
  | EInternal
deriving DecidableEq

/-- Modelled from the spec: a Go `error` value.  `basic` is an opaque
store/backend error carrying only its message; `influx` is the structured
`Error` envelope of the surrounding system, carrying
`{Code, Msg, Op, Err}` where `Err` is the optional wrapped cause
(`none` models a `nil` cause). -/
inductive GoErr where
  | basic (msg : String)
  | influx (code : Code) (msg : String) (op : String) (cause : Option GoErr)

/-- The `Code` field of an error (`none` for a plain non-envelope error). -/
def GoErr.codeOf : GoErr → Option Code
  | .basic _ => none
  | .influx c _ _ _ => some c

/-- The `Msg` field of an error (a plain error's message is its text). -/
def GoErr.msgOf : GoErr → String
  | .basic m => m
  | .influx _ m _ _ => m

/-- The `Op` field of an error (empty for a plain error). -/
def GoErr.opOf : GoErr → String
  | .basic _ => ""
  | .influx _ _ o _ => o

/-- The `Err` (wrapped cause) field of an error. -/
def GoErr.causeOf : GoErr → Option GoErr
  | .basic _ => none
  | .influx _ _ _ e => e

/-- Modelled from the spec: the rendering of an error as a string, as Go's
`%v` verb produces via the `Error()` method.  The `Error()` method of the
structured envelope is external to this fragment; the spec only requires
that a structured error carries its message and optional cause, so the
rendering joins them with `": "` in the usual Go wrapping style. -/
def GoErr.errorString : GoErr → String
  | .basic m => m
  | .influx _ m _ none => m
  | .influx _ m _ (some e) => m ++ ": " ++ e.errorString

/-- Go's `%v` formatting of a possibly-`nil` error value. -/
def formatErr : Option GoErr → String
  | none => "<nil>"
  | some e => e.errorString

/-- `type UserStatus string` from the source. -/
abbrev UserStatus := String

/-- `func (u *UserStatus) Valid() error` from the source: fails with
`&Error{Code: EInvalid, Msg: "Invalid user status"}` unless the status
is `"active"` or `"inactive"`. -/
def UserStatus.Valid (u : UserStatus) : Option GoErr :=
  if u ≠ "active" ∧ u ≠ "inactive" then
    some (.influx .EInvalid "Invalid user status" "" none)
  else
    none

/-- Modelled from the spec: the `ID` type is an opaque unique identifier
defined outside this fragment; its zero value means "unset".  It is
modelled as a natural number with `0` as the unset value. -/
abbrev ID := Nat

/-- Modelled from the spec: the `Status` type is defined outside this
fragment; `User.Status` and `UserUpdate.Status` have this type. -/
abbrev Status := String

/-- The error returned by `Status.Valid` on an unrecognized literal. -/
def invalidStatusErr : GoErr := .influx .EInvalid "invalid status" "" none

/-- Modelled from the spec: the `Status` type's `Valid` method is defined
outside this fragment; per the spec a status is valid iff it is one of
the two recognized literals `"active"`/`"inactive"`, and any other value
fails with an `Invalid`-kind error. -/
def Status.Valid (s : Status) : Option GoErr :=
  if s = "active" ∨ s = "inactive" then none
  else some invalidStatusErr

/-- The `User` struct from the source, with its four fields
`ID`, `Name`, `OAuthID`, `Status`. -/
structure User where
  ID : ID
  Name : String
  OAuthID : String
  Status : Status
deriving DecidableEq

/-- `func (u *User) Valid() error` from the source: `return u.Status.Valid()`. -/
def User.Valid (u : User) : Option GoErr :=
  Status.Valid u.Status

/-- The `UserUpdate` struct from the source: a changeset whose fields are
each either absent (`none`) or present. -/
structure UserUpdate where
  Name : Option String
  Status : Option Status
deriving DecidableEq

/-- `func (uu UserUpdate) Valid() error` from the source: `nil` when
`uu.Status == nil`, otherwise `uu.Status.Valid()`. -/
def UserUpdate.Valid (uu : UserUpdate) : Option GoErr :=
  match uu.Status with
  | none => none
  | some s => Status.Valid s

/-- The `UserFilter` struct from the source. -/
structure UserFilter where
  ID : Option ID
  Name : Option String

/-- Op name constant from the source. -/
def OpFindUserByID : String := "FindUserByID"

/-- Op name constant from the source. -/
def OpFindUser : String := "FindUser"

/-- Op name constant from the source. -/
def OpFindUsers : String := "FindUsers"

/-- Op name constant from the source. -/
def OpCreateUser : String := "CreateUser"

/-- Op name constant from the source. -/
def OpPutUser : String := "PutUser"

/-- Op name constant from the source. -/
def OpUpdateUser : String := "UpdateUser"

/-- Op name constant from the source. -/
def OpDeleteUser : String := "DeleteUser"

/-- `func ErrInternalUserServiceError(op string, err error) *Error` from the
source: builds `&Error{Code: EInternal, Msg: fmt.Sprintf("unexpected error
in users; Err: %v", err), Op: op, Err: err}`. -/
def ErrInternalUserServiceError (op : String) (err : Option GoErr) : GoErr :=
  .influx .EInternal ("unexpected error in users; Err: " ++ formatErr err) op err

/-- A serialized JSON field value (only the shapes the `User` struct needs). -/
inductive Json where
  | str (s : String)
  | num (n : Nat)
deriving DecidableEq

/-- The external (serialized) representation of a `User`, following the
struct tags in the source: `id,omitempty`, `name`, `oauthID,omitempty`,
`status`.  Per Go's `encoding/json`, a field tagged `omitempty` is dropped
when its value is the zero value of its type. -/
def User.marshalFields (u : User) : List (String × Json) :=
  (if u.ID = 0 then [] else [("id", Json.num u.ID)]) ++
  [("name", Json.str u.Name)] ++
  (if u.OAuthID = "" then [] else [("oauthID", Json.str u.OAuthID)]) ++
  [("status", Json.str u.Status)]

/-- Modelled from the spec: the persistent store backing the service is an
external collaborator; it is modelled as the list of stored records plus a
counter from which fresh identifiers are allocated. -/
structure Store where
  recs : List User
  nextID : Nat
deriving DecidableEq

/-- Modelled from the spec: the store's creation step assigns the newly
allocated (non-zero) identifier to the record and persists it. -/
def Store.create (s : Store) (u : User) : Store × User :=
  let u' : User := { u with ID := s.nextID + 1 }
  ({ recs := s.recs ++ [u'], nextID := s.nextID + 1 }, u')

/-- Modelled from the spec: look up the record with the given identifier. -/
def Store.findByID (s : Store) (i : ID) : Option User :=
  s.recs.find? (fun v => v.ID == i)

/-- Modelled from the spec: `CreateUser` validates the user and fails with
the validation error before any store interaction; only a valid user is
delegated to the store's creation step.  The store step is a parameter so
that "the store is never invoked" on invalid input is expressible as
independence from it.  The returned `User` is the caller-supplied value
after the in-place mutation of its `ID`. -/
def createUser (storeCreate : Store → User → Store × User) (s : Store)
    (u : User) : Except GoErr (Store × User) :=
  match User.Valid u with
  | some e => Except.error e
  | none => Except.ok (storeCreate s u)

/-- Modelled from the spec: `FindUserByID` returns the record with the
given identifier, failing with a `NotFound`-kind error when none exists. -/
def findUserByID (s : Store) (i : ID) : Except GoErr User :=
  match Store.findByID s i with
  | some v => Except.ok v
  | none => Except.error (.influx .ENotFound "user not found" OpFindUserByID none)

/-- Modelled from the spec: applying a changeset to a record replaces
exactly the fields present in the changeset; absent fields keep their
prior value (`ID` and `OAuthID` are not part of the update path). -/
def applyUpdate (v : User) (upd : UserUpdate) : User :=
  { v with Name := upd.Name.getD v.Name, Status := upd.Status.getD v.Status }

/-- Modelled from the spec: `UpdateUser` validates the changeset, fails
with `NotFound` when the identifier does not exist, and otherwise stores
and returns the record obtained by applying the changeset. -/
def updateUser (s : Store) (i : ID) (upd : UserUpdate) :
    Except GoErr (Store × User) :=
  match UserUpdate.Valid upd with
  | some e => Except.error e
  | none =>
    match Store.findByID s i with
    | none => Except.error (.influx .ENotFound "user not found" OpUpdateUser none)
    | some v =>
      let v' := applyUpdate v upd
      Except.ok
        ({ s with recs := s.recs.map (fun w => if w.ID == i then v' else w) }, v')

/-- An invalid status yields exactly the `Invalid`-kind error. -/
theorem status_valid_ne_none (s : Status) (h : Status.Valid s ≠ none) :
    Status.Valid s = some invalidStatusErr := by
  by_cases hc : s = "active" ∨ s = "inactive"
  · exact absurd (by simp [Status.Valid, hc]) h
  · simp [Status.Valid, hc]

/-- Replacing every record with the matching identifier leaves the
replacement as the first match, provided a match existed. -/
theorem find_map_replace (l : List User) (i : Nat) (v' : User)
    (hv' : (v'.ID == i) = true)
    (hex : l.find? (fun w => w.ID == i) ≠ none) :
    (l.map (fun w => if w.ID == i then v' else w)).find? (fun w => w.ID == i) =
      some v' := by
  induction l with
  | nil => simp at hex
  | cons a l ih =>
    by_cases ha : (a.ID == i) = true
    · rw [List.map_cons, if_pos ha]
      exact List.find?_cons_of_pos _ hv'
    · rw [List.map_cons, if_neg ha,
        List.find?_cons_of_neg (p := fun (w : User) => w.ID == i) _ ha]
      rw [List.find?_cons_of_neg (p := fun (w : User) => w.ID == i) _ ha] at hex
      exact ih hex

/-- A record with a fresh identifier appended after records with older
identifiers is the first (and only) match for that identifier. -/
theorem find_append_fresh (l : List User) (n : Nat) (u' : User)
    (hid : u'.ID = n + 1) (hlt : ∀ v ∈ l, v.ID ≤ n) :
    (l ++ [u']).find? (fun w => w.ID == n + 1) = some u' := by
  induction l with
  | nil =>
    rw [List.nil_append]
    exact List.find?_cons_of_pos _ (by simp [hid])
  | cons a l ih =>
    have h1 := hlt a (List.mem_cons_self a l)
    have ha : ¬((a.ID == n + 1) = true) := by
      intro hb
      have h2 : a.ID = n + 1 := eq_of_beq hb
      rw [h2] at h1
      exact Nat.not_succ_le_self n h1
    rw [List.cons_append,
      List.find?_cons_of_neg (p := fun (w : User) => w.ID == n + 1) _ ha]
    exact ih fun v hv => hlt v (List.mem_cons_of_mem a hv)

/-- C1: for every `User` value `u`, `u.Valid()` succeeds iff
`u.Status.Valid()` succeeds (indeed they return the same error value); a
user is valid iff its status is one of the two recognized literals
`"active"`/`"inactive"`; and changing `ID`, `Name` or `OAuthID` never
changes the result of `u.Valid()`. -/
theorem user_valid_iff_status_valid (u : User) :
    User.Valid u = Status.Valid u.Status ∧
    (User.Valid u = none ↔ u.Status = "active" ∨ u.Status = "inactive") ∧
    (∀ (i : ID) (n o : String),
      User.Valid { u with ID := i, Name := n, OAuthID := o } = User.Valid u) := by
  refine ⟨rfl, ?_, fun i n o => rfl⟩
  simp only [User.Valid, Status.Valid]
  split <;> simp_all [invalidStatusErr]

/-- C2: `s.Valid()` on a `UserStatus` returns no error iff `s` is exactly
`"active"` or `"inactive"`, and on any other string the returned error
has code `EInvalid`. -/
theorem userStatus_valid_iff (s : UserStatus) :
    (UserStatus.Valid s = none ↔ s = "active" ∨ s = "inactive") ∧
    (∀ e, UserStatus.Valid s = some e → GoErr.codeOf e = some Code.EInvalid) := by
  constructor
  · simp only [UserStatus.Valid]
    split
    · simp_all
    · simp_all
      tauto
  · intro e he
    simp only [UserStatus.Valid] at he
    split at he
    · injection he with h
      subst h
      rfl
    · simp at he

/-- Witness for C2 at the concrete status `"pending"`. -/
theorem userStatus_valid_iff_witness :
    GoErr.codeOf (GoErr.influx Code.EInvalid "Invalid user status" "" none) =
      some Code.EInvalid :=
  (userStatus_valid_iff "pending").2 _ rfl

/-- C3: a `UserUpdate` changeset with absent `Status` is valid regardless
of `Name`; with present `Status` its validity is exactly that of the
status. -/
theorem userUpdate_valid_spec (c : UserUpdate) :
    (c.Status = none → UserUpdate.Valid c = none) ∧
    (∀ st, c.Status = some st → UserUpdate.Valid c = Status.Valid st) := by
  constructor
  · intro h
    simp [UserUpdate.Valid, h]
  · intro st h
    simp [UserUpdate.Valid, h]

/-- Witness for C3: a changeset with only a name is valid; one with a
present status validates the status. -/
theorem userUpdate_valid_spec_witness :
    UserUpdate.Valid { Name := some "Bob", Status := none } = none ∧
    UserUpdate.Valid { Name := none, Status := some "pending" } =
      Status.Valid "pending" :=
  ⟨(userUpdate_valid_spec _).1 rfl, (userUpdate_valid_spec _).2 "pending" rfl⟩

/-- C4: `ErrInternalUserServiceError(op, err)` is classified `EInternal`,
records the operation name in `Op`, preserves the original error as the
wrapped cause in `Err`, and its message records the original error's
rendering. -/
theorem errInternal_wraps (op : String) (err : GoErr) :
    GoErr.codeOf (ErrInternalUserServiceError op (some err)) = some Code.EInternal ∧
    GoErr.opOf (ErrInternalUserServiceError op (some err)) = op ∧
    GoErr.causeOf (ErrInternalUserServiceError op (some err)) = some err ∧
    GoErr.msgOf (ErrInternalUserServiceError op (some err)) =
      "unexpected error in users; Err: " ++ GoErr.errorString err :=
  ⟨rfl, rfl, rfl, rfl⟩

/-- C9: `ErrInternalUserServiceError` wraps unconditionally: for every
`op` and every `err` — including a `nil` cause and a cause that is
already a domain error — the result has code `EInternal` and message
`"unexpected error in users; Err: "` followed by the cause's `%v`
formatting (`"<nil>"` for a `nil` cause); no domain-error check is
performed. -/
theorem errInternal_unconditional (op : String) (err : Option GoErr) :
    GoErr.codeOf (ErrInternalUserServiceError op err) = some Code.EInternal ∧
    GoErr.msgOf (ErrInternalUserServiceError op err) =
      "unexpected error in users; Err: " ++ formatErr err ∧
    GoErr.causeOf (ErrInternalUserServiceError op err) = err ∧
    formatErr (none : Option GoErr) = "<nil>" :=
  ⟨rfl, rfl, rfl, rfl⟩

/-- C8: the serialized representation of a `User` uses exactly the field
names `id`, `name`, `oauthID`, `status`, and the `id` and `oauthID`
fields appear precisely when their value is set (non-empty). -/
theorem user_marshal_field_names (u : User) :
    (∀ f ∈ (User.marshalFields u).map Prod.fst,
      f ∈ ["id", "name", "oauthID", "status"]) ∧
    ("id" ∈ (User.marshalFields u).map Prod.fst ↔ u.ID ≠ 0) ∧
    "name" ∈ (User.marshalFields u).map Prod.fst ∧
    ("oauthID" ∈ (User.marshalFields u).map Prod.fst ↔ u.OAuthID ≠ "") ∧
    "status" ∈ (User.marshalFields u).map Prod.fst := by
  simp only [User.marshalFields]
  split <;> split <;> simp_all

/-- Witness for C8: on a user with unset `ID` and `OAuthID`, `"name"` is
among the recognized serialized field names. -/
theorem user_marshal_field_names_witness :
    "name" ∈ ["id", "name", "oauthID", "status"] :=
  (user_marshal_field_names
      { ID := 0, Name := "Alice", OAuthID := "", Status := "active" }).1
    "name" (by decide)

/-- C10: the `name` and `status` fields are always emitted, with the
field's current value even when zero-valued, while `id` and `oauthID`
are omitted when empty. -/
theorem user_marshal_always_emits (u : User) :
    ("name", Json.str u.Name) ∈ User.marshalFields u ∧
    ("status", Json.str u.Status) ∈ User.marshalFields u ∧
    (u.ID = 0 → "id" ∉ (User.marshalFields u).map Prod.fst) ∧
    (u.OAuthID = "" → "oauthID" ∉ (User.marshalFields u).map Prod.fst) := by
  simp only [User.marshalFields]
  split <;> split <;> simp_all

/-- C5: `CreateUser` on a user whose status fails validation fails with
the `Invalid`-kind validation error, and the result is independent of the
store step and of the store state (the store is never invoked); on
success, the caller-supplied user comes back with its `ID` field set to
the newly allocated non-zero identifier and every other field untouched. -/
theorem createUser_validate_before_store
    (f g : Store → User → Store × User) (s t : Store) (u : User)
    (s' : Store) (u' : User) :
    (Status.Valid u.Status ≠ none →
      createUser f s u = Except.error invalidStatusErr ∧
      createUser f s u = createUser g t u) ∧
    (createUser Store.create s u = Except.ok (s', u') →
      u'.ID = s.nextID + 1 ∧ u'.ID ≠ 0 ∧ u'.Name = u.Name ∧
      u'.OAuthID = u.OAuthID ∧ u'.Status = u.Status) := by
  constructor
  · intro h
    have hv : User.Valid u = some invalidStatusErr := status_valid_ne_none _ h
    exact ⟨by simp [createUser, hv], by simp [createUser, hv]⟩
  · intro h
    cases hv : User.Valid u with
    | some e => simp [createUser, hv] at h
    | none =>
      simp [createUser, hv, Store.create] at h
      obtain ⟨h1, h2⟩ := h
      subst h1
      subst h2
      exact ⟨rfl, Nat.succ_ne_zero _, rfl, rfl, rfl⟩

/-- Witness for C5: creating a `"pending"` user fails with the invalid
status error regardless of the store; creating an `"active"` user keeps
its name. -/
theorem createUser_validate_before_store_witness :
    createUser Store.create { recs := [], nextID := 0 }
        { ID := 0, Name := "n", OAuthID := "", Status := "pending" } =
      Except.error invalidStatusErr ∧
    ({ ID := 1, Name := "Alice", OAuthID := "", Status := "active" } : User).Name =
      "Alice" := by
  constructor
  · exact ((createUser_validate_before_store Store.create Store.create
      { recs := [], nextID := 0 } { recs := [], nextID := 0 }
      { ID := 0, Name := "n", OAuthID := "", Status := "pending" }
      { recs := [], nextID := 0 }
      { ID := 0, Name := "n", OAuthID := "", Status := "pending" }).1
      (by simp [Status.Valid])).1
  · exact ((createUser_validate_before_store Store.create Store.create
      { recs := [], nextID := 0 } { recs := [], nextID := 0 }
      { ID := 0, Name := "Alice", OAuthID := "", Status := "active" }
      { recs := [{ ID := 1, Name := "Alice", OAuthID := "", Status := "active" }],
        nextID := 1 }
      { ID := 1, Name := "Alice", OAuthID := "", Status := "active" }).2
      rfl).2.2.1

/-- C6: a successful `UpdateUser` changes exactly the fields present in
the changeset: the record keeps its `ID` and `OAuthID`, an absent `Name`
or `Status` retains its prior value (and a present one is replaced), and
the returned user is the full new state of the stored record. -/
theorem updateUser_frame (s : Store) (i : ID) (upd : UserUpdate)
    (s' : Store) (v v' : User)
    (hfind : Store.findByID s i = some v)
    (h : updateUser s i upd = Except.ok (s', v')) :
    v'.ID = v.ID ∧ v'.OAuthID = v.OAuthID ∧
    v'.Name = upd.Name.getD v.Name ∧ v'.Status = upd.Status.getD v.Status ∧
    Store.findByID s' i = some v' := by
  cases hval : UserUpdate.Valid upd with
  | some e => simp [updateUser, hval] at h
  | none =>
    simp only [updateUser, hval, hfind, Except.ok.injEq, Prod.mk.injEq] at h
    obtain ⟨h1, h2⟩ := h
    subst h1
    subst h2
    refine ⟨rfl, rfl, rfl, rfl, ?_⟩
    have hfind' : s.recs.find? (fun (w : User) => w.ID == i) = some v := hfind
    have hpv0 := List.find?_some hfind'
    have hpv : (v.ID == i) = true := hpv0
    have hpv' : ((applyUpdate v upd).ID == i) = true := hpv
    refine find_map_replace s.recs i (applyUpdate v upd) hpv' ?_
    intro hn
    rw [hfind'] at hn
    exact Option.noConfusion hn

/-- Witness for C6: updating only the name of a stored record keeps its
status and stores the renamed record under the same identifier. -/
theorem updateUser_frame_witness :
    Store.findByID
        { recs := [{ ID := 1, Name := "Bob", OAuthID := "", Status := "active" }],
          nextID := 1 } 1 =
      some { ID := 1, Name := "Bob", OAuthID := "", Status := "active" } :=
  (updateUser_frame
    { recs := [{ ID := 1, Name := "Alice", OAuthID := "", Status := "active" }],
      nextID := 1 }
    1 { Name := some "Bob", Status := none }
    { recs := [{ ID := 1, Name := "Bob", OAuthID := "", Status := "active" }],
      nextID := 1 }
    { ID := 1, Name := "Alice", OAuthID := "", Status := "active" }
    { ID := 1, Name := "Bob", OAuthID := "", Status := "active" }
    rfl rfl).2.2.2.2

/-- C7: on a store whose existing identifiers are all drawn from the
allocation counter, a successful `CreateUser` followed by `FindUserByID`
on the assigned identifier returns exactly the created record, which
agrees with the input user on every field set at creation time. -/
theorem create_find_roundtrip (s : Store) (u : User) (s' : Store) (u' : User)
    (hwf : ∀ v ∈ s.recs, v.ID ≤ s.nextID)
    (h : createUser Store.create s u = Except.ok (s', u')) :
    findUserByID s' u'.ID = Except.ok u' ∧
    u'.Name = u.Name ∧ u'.OAuthID = u.OAuthID ∧ u'.Status = u.Status := by
  cases hv : User.Valid u with
  | some e => simp [createUser, hv] at h
  | none =>
    simp [createUser, hv, Store.create] at h
    obtain ⟨h1, h2⟩ := h
    subst h1
    subst h2
    refine ⟨?_, rfl, rfl, rfl⟩
    have hfind :
        Store.findByID
          { recs := s.recs ++ [{ u with ID := s.nextID + 1 }],
            nextID := s.nextID + 1 }
          ({ u with ID := s.nextID + 1 } : User).ID =
        some { u with ID := s.nextID + 1 } :=
      find_append_fresh s.recs s.nextID _ rfl hwf
    simp [findUserByID, hfind]

/-- Witness for C7: creating Alice in the empty store and looking her up
by the assigned identifier returns the created record. -/
theorem create_find_roundtrip_witness :
    findUserByID
        { recs := [{ ID := 1, Name := "Alice", OAuthID := "", Status := "active" }],
          nextID := 1 } 1 =
      Except.ok { ID := 1, Name := "Alice", OAuthID := "", Status := "active" } :=
  (create_find_roundtrip { recs := [], nextID := 0 }
    { ID := 0, Name := "Alice", OAuthID := "", Status := "active" }
    { recs := [{ ID := 1, Name := "Alice", OAuthID := "", Status := "active" }],
      nextID := 1 }
    { ID := 1, Name := "Alice", OAuthID := "", Status := "active" }
    (by simp) rfl).1

/-- Witness for C10: a user with empty name and unset optional fields
still serializes `name` (as the empty string) and omits `id`/`oauthID`. -/
theorem user_marshal_always_emits_witness :
    ("name", Json.str "") ∈
      User.marshalFields { ID := 0, Name := "", OAuthID := "", Status := "active" } ∧
    "id" ∉ (User.marshalFields
      { ID := 0, Name := "", OAuthID := "", Status := "active" }).map Prod.fst :=
  ⟨(user_marshal_always_emits _).1, (user_marshal_always_emits _).2.2.1 rfl⟩

end Influx
